import Mathlib

/-!
Verification of the httptmux request/history pipeline.

Shallow embedding of the three near-duplicate program variants of the
repository: `src/index_desktop.js` (desktop), `src/unnamed/part_000`
(older termux) and the newer variant with a non-interactive mode embedded
in `src/README.md`.  Pure logic is translated to Lean functions; file
I/O is modelled by explicit file-state values threaded through the
functions; the JS `JSON.parse` / `JSON.stringify` pair on the history
list is modelled by the `HistFile.content` constructor, since for these
record lists the pair is a round trip; times are epoch milliseconds as
naturals (JS `Date` values denote exactly that).
-/

namespace Httptmux

/-! ### Substring matching: JS `String.prototype.includes` -/

/-- `listHasPrefix pat l` is true when `pat` is an initial segment of `l`. -/
def listHasPrefix : List Char → List Char → Bool
  | [], _ => true
  | _ :: _, [] => false
  | a :: as, b :: bs => a == b && listHasPrefix as bs

/-- `listHasSub pat l` is true when `pat` occurs contiguously inside `l`;
this is JS `haystack.includes(needle)` on the character lists. -/
def listHasSub : List Char → List Char → Bool
  | pat, [] => pat.isEmpty
  | pat, l@(_ :: tl) => listHasPrefix pat l || listHasSub pat tl

/-- JS `s.includes(pat)`. -/
def strIncludes (s pat : String) : Bool :=
  listHasSub pat.toList s.toList

/-! ### Data model -/

/-- The `status` field of a history entry: an HTTP status code, or the
literal string "ERROR" recorded when the transport surfaced no response. -/
inductive StatusVal
  | code (n : Nat)
  | errorLit
deriving DecidableEq, Repr

/-- JS `String(e.status)`: decimal rendering for a number, the literal
text for the "ERROR" marker. -/
def statusToString : StatusVal → String
  | .code n => toString n
  | .errorLit => "ERROR"

/-- One recorded request outcome (see spec section 3).  `timestamp` is
epoch milliseconds (the value an ISO-8601 string denotes via `new Date`);
`duration` is present only on success entries, `error` only on failures. -/
structure HistoryEntry where
  timestamp : Nat
  method : String
  url : String
  headers : List (String × String)
  body : String
  status : StatusVal
  duration : Option Nat
  error : Option String
deriving DecidableEq, Repr

/-- State of the on-disk history file: absent, present but not valid
JSON, or holding a JSON array of entries. -/
inductive HistFile
  | missing
  | malformed (raw : String)
  | content (entries : List HistoryEntry)
deriving DecidableEq, Repr

/-- `loadHistory` (all variants): parse the file if it exists, falling
back to the empty array when the file is missing or the parse throws. -/
def loadHistory : HistFile → List HistoryEntry
  | .missing => []
  | .malformed _ => []
  | .content l => l

/-- `saveHistory(entry)` (all variants): load the full history, push the
entry, rewrite the whole file as the serialized list. -/
def saveHistory (e : HistoryEntry) (f : HistFile) : HistFile :=
  .content (loadHistory f ++ [e])

/-- N successive `saveHistory` calls, first entry first. -/
def appendAll (es : List HistoryEntry) (f : HistFile) : HistFile :=
  es.foldl (fun f e => saveHistory e f) f

theorem loadHistory_appendAll (es : List HistoryEntry) (f : HistFile) :
    loadHistory (appendAll es f) = loadHistory f ++ es := by
  induction es generalizing f with
  | nil => simp [appendAll]
  | cons e es ih =>
    simp only [appendAll, List.foldl_cons] at *
    rw [ih (saveHistory e f)]
    simp [saveHistory, loadHistory]

/-- C1: each `saveHistory e` call rewrites the file to the previously
loaded sequence with `e` appended, and appending any sequence of entries
to an empty history and then loading yields exactly that sequence in
append order. -/
theorem saveHistory_appends_loadAll_roundtrip :
    (∀ (e : HistoryEntry) (f : HistFile),
        loadHistory (saveHistory e f) = loadHistory f ++ [e]) ∧
    (∀ (f : HistFile) (es : List HistoryEntry),
        loadHistory f = [] → loadHistory (appendAll es f) = es) := by
  constructor
  · intro e f
    rfl
  · intro f es h
    rw [loadHistory_appendAll, h, List.nil_append]

/-- A generic sample entry used to instantiate theorems at concrete
inputs. -/
def sampleEntry (m u : String) (st : StatusVal) : HistoryEntry :=
  { timestamp := 0, method := m, url := u, headers := [], body := ""
    status := st, duration := none, error := none }

def e200 : HistoryEntry := sampleEntry "GET" "https://a.example/x" (.code 200)

def e404a : HistoryEntry := sampleEntry "GET" "https://a.example/y" (.code 404)

def e404b : HistoryEntry := sampleEntry "POST" "https://a.example/z" (.code 404)

def eErr : HistoryEntry := sampleEntry "GET" "https://a.example/w" .errorLit

theorem saveHistory_appends_loadAll_roundtrip_witness :
    loadHistory (saveHistory e200 HistFile.missing)
        = loadHistory HistFile.missing ++ [e200] ∧
    loadHistory (appendAll [e200, e404a] HistFile.missing) = [e200, e404a] :=
  ⟨saveHistory_appends_loadAll_roundtrip.1 e200 HistFile.missing,
   saveHistory_appends_loadAll_roundtrip.2 HistFile.missing [e200, e404a] rfl⟩

/-- C8: loading from a missing file, or from a file whose contents fail
to parse as JSON, yields the empty sequence and surfaces no error (the
function is total on those states). -/
theorem loadHistory_missing_or_malformed :
    loadHistory HistFile.missing = [] ∧
    ∀ raw : String, loadHistory (HistFile.malformed raw) = [] :=
  ⟨rfl, fun _ => rfl⟩

/-! ### Credential store -/

/-- State of the on-disk JWT file: absent, present but not valid JSON,
or holding a serialized object with a `token` field. -/
inductive JwtFile
  | missing
  | malformed (raw : String)
  | stored (token : String)
deriving DecidableEq, Repr

/-- `loadJWT` (all variants): on a readable file return `data.token || null`,
so an empty stored string is coerced to the absent value; missing or
unparsable files yield the absent value. -/
def loadJWT : JwtFile → Option String
  | .missing => none
  | .malformed _ => none
  | .stored t => if t = "" then none else some t

/-- `saveJWT(token)` (all variants): overwrite the file with the object
holding `token`. -/
def saveJWT (token : String) (_ : JwtFile) : JwtFile :=
  .stored token

/-- Desktop / newer variant "Set new token" step of `jwtMode`: a token
that is falsy or has no "." separator (JS `token.includes(".")`) is
rejected with a message and nothing is written; otherwise `saveJWT`
runs. -/
def jwtModeSetToken (token : String) (f : JwtFile) : JwtFile :=
  if token = "" || !(strIncludes token ".") then f
  else saveJWT token f

/-- Older termux variant `jwtMode`: the prompted token is saved with no
validation at all. -/
def jwtModeSetTokenTermux (token : String) (f : JwtFile) : JwtFile :=
  saveJWT token f

/-- Decoded JWT payload; only the `exp` claim (seconds since epoch) is
ever read.  `none` models a payload without the claim. -/
structure JwtPayload where
  exp : Option Nat
deriving DecidableEq, Repr

/-- What `checkJWTExpiry` reports on the console. -/
inductive ExpiryReport
  | expired
  | expiresInMinutes (n : Nat)
deriving DecidableEq, Repr

/-- JS `Math.round(ms / 60000)` for nonnegative integer `ms`: round half
up, i.e. floor of `(ms + 30000) / 60000`.  (The JS computation on doubles
is exact here: half-integer quotients are hit only at exactly
representable points.) -/
def roundMinutes (ms : Nat) : Nat :=
  (ms + 30000) / 60000

/-- `checkJWTExpiry` (desktop / newer variant), with the `decodeJWT`
result and the current time passed explicitly.  The JS guard
`if (payload && payload.exp)` tests truthiness, so a payload whose `exp`
is absent or zero produces no report; otherwise the expiry instant
`exp * 1000` is compared with now. -/
def checkJWTExpiry (payload : Option JwtPayload) (now : Nat) : Option ExpiryReport :=
  match payload with
  | none => none
  | some p =>
    match p.exp with
    | none => none
    | some e =>
      if e = 0 then none
      else if e * 1000 < now then some .expired
      else some (.expiresInMinutes (roundMinutes (e * 1000 - now)))

/-- C9: credential round-trip.  For a non-empty token, `loadJWT` after
`saveJWT` returns it; saving the empty string stores a falsy token which
`loadJWT` coerces to the absent value. -/
theorem loadJWT_saveJWT_roundtrip :
    (∀ (t : String) (f : JwtFile), t ≠ "" → loadJWT (saveJWT t f) = some t) ∧
    (∀ f : JwtFile, loadJWT (saveJWT "" f) = none) := by
  constructor
  · intro t f ht
    simp [saveJWT, loadJWT, ht]
  · intro f
    simp [saveJWT, loadJWT]

theorem loadJWT_saveJWT_roundtrip_witness :
    loadJWT (saveJWT "a.b" JwtFile.missing) = some "a.b" ∧
    loadJWT (saveJWT "" JwtFile.missing) = none :=
  ⟨loadJWT_saveJWT_roundtrip.1 "a.b" JwtFile.missing (by decide),
   loadJWT_saveJWT_roundtrip.2 JwtFile.missing⟩

/-- C7 counterexample: in the older termux variant, setting a JWT saves
the submitted token without any validation, so submitting the empty
string (which both is empty and lacks a "." separator) does write the
credential file, contradicting the claim that such strings are rejected
before save. -/
theorem jwtModeTermux_saves_invalid_token :
    jwtModeSetTokenTermux "" JwtFile.missing = JwtFile.stored "" ∧
    JwtFile.stored "" ≠ JwtFile.missing := by
  constructor
  · rfl
  · intro h
    cases h

/-- C7 amended: in the desktop and newer variants, a submitted token
that is empty or lacks a "." separator is rejected before save — the
credential file is left exactly as it was — and every token containing a
"." is saved; the older termux variant saves any submitted token
unconditionally. -/
theorem jwtMode_rejects_malformed_token (token : String) (f : JwtFile) :
    (token = "" → jwtModeSetToken token f = f) ∧
    (strIncludes token "." = false → jwtModeSetToken token f = f) ∧
    (token ≠ "" → strIncludes token "." = true →
        jwtModeSetToken token f = JwtFile.stored token) := by
  refine ⟨fun h => ?_, fun h => ?_, fun h1 h2 => ?_⟩
  · simp [jwtModeSetToken, h]
  · simp [jwtModeSetToken, h]
  · simp [jwtModeSetToken, saveJWT, h1, h2]

theorem jwtMode_rejects_malformed_token_witness :
    jwtModeSetToken "" JwtFile.missing = JwtFile.missing ∧
    jwtModeSetToken "abc" JwtFile.missing = JwtFile.missing ∧
    jwtModeSetToken "a.b" JwtFile.missing = JwtFile.stored "a.b" :=
  ⟨(jwtMode_rejects_malformed_token "" JwtFile.missing).1 rfl,
   (jwtMode_rejects_malformed_token "abc" JwtFile.missing).2.1 (by decide),
   (jwtMode_rejects_malformed_token "a.b" JwtFile.missing).2.2 (by decide) (by decide)⟩

/-- C6 counterexample.  First conjunct: a token with `exp = 1` checked at
`now = 1000` ms (so `exp * 1000` is not earlier than now, but less than
30 s remain) is reported as expiring in 0 minutes — not the positive
minutes-remaining value the claim requires.  Second conjunct: a token
whose payload contains the claim `exp = 0` checked at `now = 1` ms is
past its expiry instant, yet the JS truthiness guard `payload.exp`
suppresses any report, where the claim requires "expired". -/
theorem checkJWTExpiry_counterexample :
    checkJWTExpiry (some ⟨some 1⟩) 1000
        = some (ExpiryReport.expiresInMinutes 0) ∧
    checkJWTExpiry (some ⟨some 0⟩) 1 = none := by
  decide

/-- C6 amended: for every token whose decoded payload contains a NONZERO
`exp` claim, if `exp * 1000` is earlier than now the check reports
expired; otherwise it reports a minutes-remaining value equal to
`round((exp * 1000 - now) / 60000)` — characterised below as the `m`
with `60000 m ≤ remaining + 30000 < 60000 (m + 1)` — which may be 0
rather than positive when under 30 seconds remain.  A zero `exp` claim
is treated as absent (JS truthiness) and nothing is reported. -/
theorem checkJWTExpiry_reports (e now : Nat) (he : e ≠ 0) :
    (e * 1000 < now →
        checkJWTExpiry (some ⟨some e⟩) now = some ExpiryReport.expired) ∧
    (now ≤ e * 1000 →
        ∃ m, checkJWTExpiry (some ⟨some e⟩) now
            = some (ExpiryReport.expiresInMinutes m) ∧
          m = roundMinutes (e * 1000 - now) ∧
          60000 * m ≤ (e * 1000 - now) + 30000 ∧
          (e * 1000 - now) + 30000 < 60000 * (m + 1)) := by
  constructor
  · intro hlt
    simp [checkJWTExpiry, he, hlt]
  · intro hle
    refine ⟨roundMinutes (e * 1000 - now), ?_, rfl, ?_, ?_⟩
    · simp [checkJWTExpiry, he, Nat.not_lt.mpr hle]
    · have hm : roundMinutes (e * 1000 - now)
          = (e * 1000 - now + 30000) / 60000 := rfl
      omega
    · have hm : roundMinutes (e * 1000 - now)
          = (e * 1000 - now + 30000) / 60000 := rfl
      omega

theorem checkJWTExpiry_reports_witness :
    (60 * 1000 < 0 →
        checkJWTExpiry (some ⟨some 60⟩) 0 = some ExpiryReport.expired) ∧
    (0 ≤ 60 * 1000 →
        ∃ m, checkJWTExpiry (some ⟨some 60⟩) 0
            = some (ExpiryReport.expiresInMinutes m) ∧
          m = roundMinutes (60 * 1000 - 0) ∧
          60000 * m ≤ (60 * 1000 - 0) + 30000 ∧
          (60 * 1000 - 0) + 30000 < 60000 * (m + 1)) :=
  checkJWTExpiry_reports 60 0 (by decide)

/-! ### Request executor -/

/-- The response carried by a transport error, when the failure happened
at the HTTP level (`error.response` in axios). -/
structure ErrResponse where
  status : Nat
  data : String
deriving DecidableEq, Repr

/-- A transport failure as thrown by axios: optionally a surfaced
response, always a message. -/
structure TransportError where
  response : Option ErrResponse
  message : String
deriving DecidableEq, Repr

/-- Result of `formatError`. -/
structure FormattedError where
  status : StatusVal
  data : Option String
  message : String
deriving DecidableEq, Repr

/-- `formatError` (desktop / newer variant): pick the response status
when a response was surfaced, else the literal "ERROR". -/
def formatError (error : TransportError) : FormattedError :=
  match error.response with
  | some r => { status := .code r.status, data := some r.data, message := error.message }
  | none => { status := .errorLit, data := none, message := error.message }

/-- The method/url/headers/body tuple fed to `executeRequest`. -/
structure Request where
  method : String
  url : String
  headers : List (String × String)
  body : String
deriving DecidableEq, Repr

/-- A successful transport response; `duration` models
`Date.now() - start` measured around the call. -/
structure SuccessResponse where
  status : Nat
  duration : Nat
  data : String
deriving DecidableEq, Repr

/-- JS spread-override `\x7b ...headers, Authorization: Bearer t \x7d`:
every other key kept, the Authorization key set to the bearer value. -/
def setAuthHeader (hs : List (String × String)) (t : String) : List (String × String) :=
  hs.filter (fun p => p.1 != "Authorization") ++ [("Authorization", "Bearer " ++ t)]

/-- `executeRequest` (desktop variant), with the awaited transport
outcome passed explicitly as success-or-error and times as arguments.
On success a history entry with the response status and the measured
duration is appended; on failure the formatted error's status and
message are recorded and no duration field is written. -/
def executeRequest (req : Request) (jwtF : JwtFile)
    (outcome : Except TransportError SuccessResponse)
    (now : Nat) (hist : HistFile) : HistFile :=
  let headers := match loadJWT jwtF with
    | some t => setAuthHeader req.headers t
    | none => req.headers
  match outcome with
  | .ok response =>
      saveHistory
        { timestamp := now, method := req.method, url := req.url,
          headers := headers, body := req.body,
          status := .code response.status,
          duration := some response.duration, error := none } hist
  | .error error =>
      let formatted := formatError error
      saveHistory
        { timestamp := now, method := req.method, url := req.url,
          headers := headers, body := req.body,
          status := formatted.status,
          duration := none, error := some formatted.message } hist

/-- C2: whenever the transport call fails, exactly one failure entry is
appended; its status is the surfaced response's HTTP status code when
the error carries a response (never the literal "ERROR" in that case)
and the literal "ERROR" otherwise; it carries the error message and has
no duration field. -/
theorem executeRequest_failure_entry (req : Request) (jwtF : JwtFile)
    (err : TransportError) (now : Nat) (hist : HistFile) :
    ∃ entry : HistoryEntry,
      loadHistory (executeRequest req jwtF (.error err) now hist)
          = loadHistory hist ++ [entry] ∧
      entry.duration = none ∧
      entry.error = some err.message ∧
      (∀ r : ErrResponse, err.response = some r →
          entry.status = StatusVal.code r.status ∧
          entry.status ≠ StatusVal.errorLit) ∧
      (err.response = none → entry.status = StatusVal.errorLit) := by
  refine ⟨_, rfl, rfl, ?_, ?_, ?_⟩
  · cases hr : err.response <;> simp [formatError, hr]
  · intro r hr
    simp [formatError, hr]
  · intro hr
    simp [formatError, hr]

theorem executeRequest_failure_entry_witness :
    ∃ entry : HistoryEntry,
      loadHistory (executeRequest
          { method := "GET", url := "https://a.example/x", headers := [], body := "" }
          JwtFile.missing
          (.error { response := some { status := 500, data := "boom" }, message := "fail" })
          7 HistFile.missing)
          = loadHistory HistFile.missing ++ [entry] ∧
      entry.duration = none ∧
      entry.error = some "fail" ∧
      (∀ r : ErrResponse,
          (some { status := 500, data := "boom" } : Option ErrResponse) = some r →
          entry.status = StatusVal.code r.status ∧
          entry.status ≠ StatusVal.errorLit) ∧
      ((some { status := 500, data := "boom" } : Option ErrResponse) = none →
          entry.status = StatusVal.errorLit) :=
  executeRequest_failure_entry
    { method := "GET", url := "https://a.example/x", headers := [], body := "" }
    JwtFile.missing
    { response := some { status := 500, data := "boom" }, message := "fail" }
    7 HistFile.missing

/-! ### History filtering and search -/

/-- `filterHistory(status, since)` (newer variant; the desktop
`filterHistoryPrompt` applies the same two conditional filters): when the
status string is truthy keep entries with `String(e.status) === status`,
then when the since value is truthy keep entries whose timestamp is not
earlier than it. -/
def filterHistory (status : Option String) (since : Option Nat)
    (h : List HistoryEntry) : List HistoryEntry :=
  let results := match status with
    | none => h
    | some s => if s = "" then h else h.filter (fun e => statusToString e.status == s)
  match since with
  | none => results
  | some d => results.filter (fun e => decide (d ≤ e.timestamp))

/-- JS `keyword.toUpperCase()`, on the ASCII letters the repository's
HTTP-method strings use. -/
def strToUpper (s : String) : String :=
  String.mk (s.toList.map Char.toUpper)

/-- `searchHistory` (all variants), with the prompted keyword and loaded
history passed explicitly: keep entries where the uppercased keyword
occurs in the method, or the raw keyword occurs in the url, or the raw
keyword occurs in `String(status)`. -/
def searchHistory (keyword : String) (h : List HistoryEntry) : List HistoryEntry :=
  h.filter (fun entry =>
    strIncludes entry.method (strToUpper keyword) ||
    strIncludes entry.url keyword ||
    strIncludes (statusToString entry.status) keyword)

theorem listHasPrefix_iff (pat l : List Char) :
    listHasPrefix pat l = true ↔ ∃ t, l = pat ++ t := by
  induction pat generalizing l with
  | nil =>
    simp [listHasPrefix]
  | cons a as ih =>
    cases l with
    | nil =>
      simp [listHasPrefix]
    | cons b bs =>
      simp only [listHasPrefix, Bool.and_eq_true, beq_iff_eq, ih, List.cons_append,
        List.cons.injEq]
      constructor
      · rintro ⟨rfl, t, rfl⟩
        exact ⟨t, rfl, rfl⟩
      · rintro ⟨t, rfl, rfl⟩
        exact ⟨rfl, t, rfl⟩

theorem listHasSub_iff (pat l : List Char) :
    listHasSub pat l = true ↔ ∃ pre post, l = pre ++ pat ++ post := by
  induction l with
  | nil =>
    simp only [listHasSub, List.isEmpty_iff]
    constructor
    · rintro rfl
      exact ⟨[], [], rfl⟩
    · rintro ⟨pre, post, h⟩
      rcases List.append_eq_nil.mp (List.append_eq_nil.mp h.symm).1 with ⟨-, h2⟩
      exact h2
  | cons b bs ih =>
    simp only [listHasSub, Bool.or_eq_true, listHasPrefix_iff, ih]
    constructor
    · rintro (⟨t, ht⟩ | ⟨pre, post, hp⟩)
      · exact ⟨[], t, by simpa using ht⟩
      · exact ⟨b :: pre, post, by simp [hp]⟩
    · rintro ⟨pre, post, h⟩
      cases pre with
      | nil =>
        exact Or.inl ⟨post, by simpa using h⟩
      | cons c cs =>
        rw [List.cons_append, List.cons_append, List.cons.injEq] at h
        exact Or.inr ⟨cs, post, h.2⟩

theorem listHasSub_nil (l : List Char) : listHasSub [] l = true := by
  cases l with
  | nil => rfl
  | cons b bs => simp [listHasSub, listHasPrefix]

/-- C4: filtering with a truthy status argument and/or a since argument
returns exactly the entries satisfying `String(status)` equality AND the
timestamp lower bound, both conjoined when both are given; in
particular, filtering for status "404" over statuses 200, 404, 404,
"ERROR" returns exactly the two 404 entries in order. -/
theorem filterHistory_conjoined (s : String) (d : Nat)
    (h : List HistoryEntry) (hs : s ≠ "") :
    filterHistory (some s) (some d) h
        = h.filter (fun e => statusToString e.status == s && decide (d ≤ e.timestamp)) ∧
    filterHistory (some s) none h
        = h.filter (fun e => statusToString e.status == s) ∧
    filterHistory none (some d) h
        = h.filter (fun e => decide (d ≤ e.timestamp)) ∧
    filterHistory none none h = h ∧
    filterHistory (some "404") none [e200, e404a, e404b, eErr] = [e404a, e404b] := by
  refine ⟨?_, ?_, ?_, rfl, ?_⟩
  · have hsplit : filterHistory (some s) (some d) h
        = (h.filter (fun e => statusToString e.status == s)).filter
            (fun e => decide (d ≤ e.timestamp)) := by
      simp [filterHistory, hs]
    rw [hsplit, List.filter_filter]
    exact List.filter_congr (fun e _ => Bool.and_comm _ _)
  · simp [filterHistory, hs]
  · rfl
  · decide

theorem filterHistory_conjoined_witness :
    filterHistory (some "404") (some 0) [e200, e404a]
        = [e200, e404a].filter
            (fun e => statusToString e.status == "404" && decide (0 ≤ e.timestamp)) ∧
    filterHistory (some "404") none [e200, e404a]
        = [e200, e404a].filter (fun e => statusToString e.status == "404") ∧
    filterHistory none (some 0) [e200, e404a]
        = [e200, e404a].filter (fun e => decide (0 ≤ e.timestamp)) ∧
    filterHistory none none [e200, e404a] = [e200, e404a] ∧
    filterHistory (some "404") none [e200, e404a, e404b, eErr] = [e404a, e404b] :=
  filterHistory_conjoined "404" 0 [e200, e404a] (by decide)

/-- C5: search returns exactly the subsequence of entries for which the
uppercased keyword occurs contiguously in the method, OR the raw keyword
occurs in the url, OR the raw keyword occurs in the string form of the
status — the exact case-handling asymmetry of the source. -/
theorem searchHistory_characterised (keyword : String) (h : List HistoryEntry) :
    (searchHistory keyword h).Sublist h ∧
    ∀ e : HistoryEntry, e ∈ searchHistory keyword h ↔
      e ∈ h ∧
        ((∃ pre post, e.method.toList = pre ++ (strToUpper keyword).toList ++ post) ∨
         (∃ pre post, e.url.toList = pre ++ keyword.toList ++ post) ∨
         (∃ pre post,
            (statusToString e.status).toList = pre ++ keyword.toList ++ post)) := by
  constructor
  · exact List.filter_sublist h
  · intro e
    rw [searchHistory, List.mem_filter]
    simp only [Bool.or_eq_true, strIncludes, listHasSub_iff, or_assoc]

theorem searchHistory_characterised_witness :
    (searchHistory "404" [e200, e404a]).Sublist [e200, e404a] ∧
    ∀ e : HistoryEntry, e ∈ searchHistory "404" [e200, e404a] ↔
      e ∈ [e200, e404a] ∧
        ((∃ pre post, e.method.toList = pre ++ (strToUpper "404").toList ++ post) ∨
         (∃ pre post, e.url.toList = pre ++ "404".toList ++ post) ∨
         (∃ pre post,
            (statusToString e.status).toList = pre ++ "404".toList ++ post)) :=
  searchHistory_characterised "404" [e200, e404a]

/-- C10: the empty keyword matches every entry, since the uppercased
empty keyword is still empty and the empty sequence occurs in every
method, url and status string, so the search acts as the identity
filter. -/
theorem searchHistory_empty_keyword (h : List HistoryEntry) :
    searchHistory "" h = h := by
  rw [searchHistory, List.filter_eq_self]
  intro e _
  have hm : strIncludes e.method (strToUpper "") = true := by
    simpa [strIncludes, strToUpper] using listHasSub_nil e.method.toList
  simp [hm]

/-! ### Headers/body JSON input handling

`JSON.parse` is modelled by an explicit parse function passed as an
argument: `some v` when the parse succeeds with value `v`, `none` when
it throws a SyntaxError. -/

/-- Result of the interactive handling of one JSON input field: the
value used for the request, and whether the invalid-JSON warning was
printed. -/
structure ParsedField (α : Type) where
  value : α
  warned : Bool
deriving DecidableEq, Repr

/-- `runRequest` (all variants) handling of the headers or body input:
start from the empty object, and only when the typed string is truthy
attempt `JSON.parse` inside try/catch, printing a warning and keeping
the empty object when it throws.  Never throws itself. -/
def runRequestJsonField {α : Type} (parse : String → Option α)
    (emptyObj : α) (input : String) : ParsedField α :=
  if input = "" then { value := emptyObj, warned := false }
  else
    match parse input with
    | some v => { value := v, warned := false }
    | none => { value := emptyObj, warned := true }

/-- `runNonInteractive` (newer variant) handling of the `-h`/`--headers`
or `-b`/`--body` string: when the flag value is truthy, `JSON.parse` is
applied with NO surrounding try/catch, so a failed parse propagates as a
thrown exception (modelled as the error case). -/
def runNonInteractiveJsonField {α : Type} (parse : String → Option α)
    (emptyObj : α) (input : Option String) : Except Unit α :=
  match input with
  | none => .ok emptyObj
  | some s =>
    if s = "" then .ok emptyObj
    else
      match parse s with
      | some v => .ok v
      | none => .error ()

/-- A concrete parse oracle used to instantiate theorems at specific
inputs; it agrees with `JSON.parse` on the two inputs used below: the
two-character object literal parses to the empty object, and the text
"\x7bbad json" fails to parse. -/
def sampleJsonParse : String → Option (List (String × String)) :=
  fun s => if s = "\x7b\x7d" then some [] else none

/-- C3 counterexample: in the non-interactive flag mode, a malformed
headers string such as "\x7bbad json" passed via `-h` makes the
invocation throw (the parse error escapes, no empty-object fallback, no
warning), contradicting the claim that every mode accepting
headers/body strings proceeds with an empty object.  (The desktop
variant's source has no non-interactive mode at all; this is the newer
variant embedded in the README.) -/
theorem runNonInteractive_throws_on_malformed_headers :
    runNonInteractiveJsonField sampleJsonParse ([] : List (String × String))
        (some "\x7bbad json") = Except.error () ∧
    ∀ v : List (String × String),
      runNonInteractiveJsonField sampleJsonParse ([] : List (String × String))
          (some "\x7bbad json") ≠ Except.ok v := by
  constructor
  · rfl
  · intro v hv
    rw [show runNonInteractiveJsonField sampleJsonParse
          ([] : List (String × String)) (some "\x7bbad json")
          = Except.error () from rfl] at hv
    cases hv

/-- C3 amended: in the interactive prompt mode, a headers or body string
that fails to parse as JSON never throws — the field is replaced by the
empty object, the warning is printed and the request proceeds; in the
non-interactive flag mode, however, a malformed `-h`/`--headers` or
`-b`/`--body` string is parsed outside any try/catch and the invocation
fails with the thrown parse error instead of proceeding. -/
theorem runRequest_malformed_json_recovers {α : Type}
    (parse : String → Option α) (emptyObj : α) (input : String)
    (hbad : parse input = none) (hne : input ≠ "") :
    runRequestJsonField parse emptyObj input
        = { value := emptyObj, warned := true } := by
  simp [runRequestJsonField, hne, hbad]

theorem runRequest_malformed_json_recovers_witness :
    runRequestJsonField sampleJsonParse ([] : List (String × String))
        "\x7bbad json" = { value := [], warned := true } :=
  runRequest_malformed_json_recovers sampleJsonParse [] "\x7bbad json"
    (by decide) (by decide)

end Httptmux
